import Mathlib

/-!
Verification of the threshold & segmentation engine of the Olist dynamic BI
dashboard (`premium_dashboard_parquet.py`).

The dataframe is embedded as a `List Order`; monetary amounts, day counts and
timestamps (expressed in fractional days) are rationals.  A pandas `NaN` value
in an optional timestamp column is embedded as `Option.none`, and a pandas
comparison against `NaN` (which is `False`) is embedded accordingly.
`Series.quantile` with its default linear interpolation returns `NaN` on an
empty series; this is embedded as an `Option`-valued quantile that is `none`
exactly on the empty list.
-/

/-- One row of the consolidated dataframe after `load_data_from_parquet`:
rows lacking `order_delivered_customer_date` have been dropped (so that column
is total) and `delivery_days` has been precomputed by the loader.  Timestamps
are rational day numbers; `order_approved_at` and `order_delivered_carrier_date`
may still be missing (`NaT`). -/
structure Order where
  order_id : String
  order_purchase_timestamp : ℚ
  order_approved_at : Option ℚ
  order_delivered_carrier_date : Option ℚ
  order_delivered_customer_date : ℚ
  price : ℚ
  freight_value : ℚ
  review_score : ℚ
  customer_state : String
  delivery_days : ℚ
deriving DecidableEq

/-- The tuple `(f_limit, d_limit, f_warning, d_warning)` returned by
`calculate_dynamic_thresholds`. -/
structure ThresholdSet where
  f_limit : ℚ
  d_limit : ℚ
  f_warning : ℚ
  d_warning : ℚ
deriving DecidableEq

/-- Total list indexing with default `0`, the form used by the positional
quantile interpolation below. -/
def nth : List ℚ → ℕ → ℚ
  | [], _ => 0
  | x :: _, 0 => x
  | _ :: xs, n + 1 => nth xs n

/-- Linear interpolation of a list of values at a fractional position `h`
(numpy/pandas positional rule): with `i = ⌊h⌋` and `g = h - ⌊h⌋`, the value is
`s[i] + g * (s[i+1] - s[i])`. -/
def interpAt (s : List ℚ) (h : ℚ) : ℚ :=
  nth s (Int.floor h).toNat +
    (h - Int.floor h) * (nth s ((Int.floor h).toNat + 1) - nth s (Int.floor h).toNat)

/-- `Series.quantile(q)` with linear interpolation: sort the values ascending
and interpolate at position `q * (n - 1)`; on an empty series pandas yields
`NaN`, embedded as `none`. -/
def quantile (xs : List ℚ) (q : ℚ) : Option ℚ :=
  if xs.isEmpty then none
  else some (interpAt (xs.insertionSort (· ≤ ·)) (q * ((xs.length : ℚ) - 1)))

/-- `calculate_dynamic_thresholds(df)`: IQR (Tukey) outlier bounds for the
`freight_value` and `delivery_days` columns; `limit = Q3 + 1.5 * (Q3 - Q1)`,
`warning = limit * 0.8`.  The result is `none` exactly when the quantiles are
`NaN` (empty input). -/
def calculate_dynamic_thresholds (df : List Order) : Option ThresholdSet :=
  match quantile (df.map (·.freight_value)) (1/4),
        quantile (df.map (·.freight_value)) (3/4),
        quantile (df.map (·.delivery_days)) (1/4),
        quantile (df.map (·.delivery_days)) (3/4) with
  | some f_q1, some f_q3, some d_q1, some d_q3 =>
      let f_limit := f_q3 + 3/2 * (f_q3 - f_q1)
      let d_limit := d_q3 + 3/2 * (d_q3 - d_q1)
      some ⟨f_limit, d_limit, f_limit * (4/5), d_limit * (4/5)⟩
  | _, _, _, _ => none

/-- The `at_risk_cnt` boolean-mask count: rows with
`(delivery_days > d_warning & delivery_days <= d_limit) |
 (freight_value > f_warning & freight_value <= f_limit)`. -/
def at_risk_cnt (rs : List Order) (t : ThresholdSet) : ℕ :=
  (rs.filter (fun r =>
    (decide (r.delivery_days > t.d_warning) && decide (r.delivery_days ≤ t.d_limit)) ||
    (decide (r.freight_value > t.f_warning) && decide (r.freight_value ≤ t.f_limit)))).length

/-- The `worst_case_cnt` boolean-mask count: rows with
`delivery_days > d_limit & freight_value > f_limit`. -/
def worst_case_cnt (rs : List Order) (t : ThresholdSet) : ℕ :=
  (rs.filter (fun r =>
    decide (r.delivery_days > t.d_limit) && decide (r.freight_value > t.f_limit))).length

/-- The outlier-table membership predicate of the "Outlier Deep Dive" tab:
`delivery_days > d_limit | freight_value > f_limit`. -/
def is_outlier (r : Order) (t : ThresholdSet) : Bool :=
  decide (r.delivery_days > t.d_limit) || decide (r.freight_value > t.f_limit)

/-- `outliers_df`: the rows of the active collection passing the outlier-table
membership predicate. -/
def outliers_df (rs : List Order) (t : ThresholdSet) : List Order :=
  rs.filter (fun r => is_outlier r t)

/-- The five mutually exclusive severity segments of the satisfaction tab. -/
inductive Segment
  | normal
  | atRisk
  | highFreight
  | delayed
  | worstCase
deriving DecidableEq, Repr

/-- The hierarchical segment classification of tab 4, as sequential overwrites:
start at `Normal`; `At-Risk` where `delivery_days > d_warning` or
`freight_value > f_warning`; `High Freight` where `freight_value > f_limit`;
`Delayed` where `delivery_days > d_limit`; finally `Worst Case` where both
limits are exceeded. -/
def classify (freight delivery : ℚ) (t : ThresholdSet) : Segment :=
  let s := Segment.normal
  let s := if delivery > t.d_warning ∨ freight > t.f_warning then Segment.atRisk else s
  let s := if freight > t.f_limit then Segment.highFreight else s
  let s := if delivery > t.d_limit then Segment.delayed else s
  if delivery > t.d_limit ∧ freight > t.f_limit then Segment.worstCase else s

/-- Pandas semantics of `x > b` on a possibly missing (`NaN`) value: any
comparison with `NaN` is `False`. -/
def gtN (x : Option ℚ) (b : ℚ) : Bool :=
  match x with
  | none => false
  | some v => decide (v > b)

/-- The same classification cascade applied to a row whose `freight_value` or
`delivery_days` cell may be missing: a mask comparison against a missing cell
is simply false, so the row is classified from its present cells. -/
def classifyN (freight delivery : Option ℚ) (t : ThresholdSet) : Segment :=
  let s := Segment.normal
  let s := if gtN delivery t.d_warning || gtN freight t.f_warning then Segment.atRisk else s
  let s := if gtN freight t.f_limit then Segment.highFreight else s
  let s := if gtN delivery t.d_limit then Segment.delayed else s
  if gtN delivery t.d_limit && gtN freight t.f_limit then Segment.worstCase else s

/-- One overwrite step of the cascade, by its number in the spec (2 = At-Risk,
3 = High Freight, 4 = Delayed, 5 = Worst Case); any other number is a no-op. -/
def applyStep (i : ℕ) (freight delivery : ℚ) (t : ThresholdSet) (s : Segment) : Segment :=
  match i with
  | 2 => if delivery > t.d_warning ∨ freight > t.f_warning then Segment.atRisk else s
  | 3 => if freight > t.f_limit then Segment.highFreight else s
  | 4 => if delivery > t.d_limit then Segment.delayed else s
  | 5 => if delivery > t.d_limit ∧ freight > t.f_limit then Segment.worstCase else s
  | _ => s

/-- Run the classification cascade with the overwrite steps taken in the given
order, starting from `Normal`. -/
def runCascade (order : List ℕ) (freight delivery : ℚ) (t : ThresholdSet) : Segment :=
  order.foldl (fun s i => applyStep i freight delivery t s) Segment.normal

/-- Arithmetic mean of a list of rationals (`Series.mean`). -/
def mean (xs : List ℚ) : ℚ := xs.sum / xs.length

/-- The "Process Lead Time" aggregation of tab 2: drop rows missing
`order_approved_at` or `order_delivered_carrier_date` (the delivered timestamp
is total after loading), compute the three stage durations in fractional days,
group by the calendar month of `order_purchase_timestamp` and take the mean of
each stage per month, months ascending.  Extracting the month key
(`strftime %Y-%m`, an order-preserving calendar computation) is abstracted as
the `monthOf` field selector. -/
def monthlyAggregate (monthOf : ℚ → ℤ) (records : List Order) :
    List (ℤ × ℚ × ℚ × ℚ) :=
  let op := records.filter (fun r =>
    r.order_approved_at.isSome && r.order_delivered_carrier_date.isSome)
  let months := ((op.map (fun r => monthOf r.order_purchase_timestamp)).dedup).insertionSort (· ≤ ·)
  months.map (fun m =>
    let grp := op.filter (fun r => monthOf r.order_purchase_timestamp == m)
    (m,
     mean (grp.map (fun r => r.order_approved_at.getD 0 - r.order_purchase_timestamp)),
     mean (grp.map (fun r => r.order_delivered_carrier_date.getD 0 - r.order_approved_at.getD 0)),
     mean (grp.map (fun r => r.order_delivered_customer_date - r.order_delivered_carrier_date.getD 0))))

/-- The sidebar state filter: with a non-empty multiselect the active
collection is `df[df['customer_state'].isin(selected_state)]`, otherwise the
whole dataframe. -/
def applyStateFilter (df : List Order) (sel : List String) : List Order :=
  if sel = [] then df
  else df.filter (fun r => decide (r.customer_state ∈ sel))

/-- Everything `main` derives from the loaded dataframe and the filter
selection: the threshold tuple, the two risk-band counts, the total order
count, the outlier table, the per-row segments, and the monthly lead-time
aggregate. -/
structure MainView where
  thresholds : ThresholdSet
  at_risk : ℕ
  worst_case : ℕ
  total_orders : ℕ
  outliers : List Order
  segments : List (Order × Segment)
  monthly : List (ℤ × ℚ × ℚ × ℚ)
deriving DecidableEq

/-- The dataflow of `main`: return early on an empty dataframe; compute the
thresholds from the full dataframe (before the sidebar filter); build the
filtered `plot_df`; derive counts, outlier table and segments from `plot_df`
with those thresholds; the tab-2 monthly aggregate is computed from `df`
itself. -/
def mainView (monthOf : ℚ → ℤ) (df : List Order) (sel : List String) :
    Option MainView :=
  if df.isEmpty then none
  else
    match calculate_dynamic_thresholds df with
    | none => none
    | some t =>
        some { thresholds := t
             , at_risk := at_risk_cnt (applyStateFilter df sel) t
             , worst_case := worst_case_cnt (applyStateFilter df sel) t
             , total_orders := (applyStateFilter df sel).length
             , outliers := outliers_df (applyStateFilter df sel) t
             , segments := (applyStateFilter df sel).map
                 (fun r => (r, classify r.freight_value r.delivery_days t))
             , monthly := monthlyAggregate monthOf df }

/-- A row with the given state, freight value and delivery days; the remaining
columns are irrelevant defaults. -/
def mkOrder (state : String) (freight delivery : ℚ) : Order :=
  { order_id := state
  , order_purchase_timestamp := 0
  , order_approved_at := some 0
  , order_delivered_carrier_date := some 0
  , order_delivered_customer_date := 0
  , price := 0
  , freight_value := freight
  , review_score := 0
  , customer_state := state
  , delivery_days := delivery }

/-- A row with the given state and lifecycle timestamps (in days); the
remaining columns are irrelevant defaults. -/
def mkOrderT (state : String) (purchase : ℚ) (approved carrier : Option ℚ)
    (delivered : ℚ) : Order :=
  { order_id := state
  , order_purchase_timestamp := purchase
  , order_approved_at := approved
  , order_delivered_carrier_date := carrier
  , order_delivered_customer_date := delivered
  , price := 0
  , freight_value := 0
  , review_score := 0
  , customer_state := state
  , delivery_days := delivered - purchase }

/-- The view `main` computes for the one-row dataframe `[mkOrder "A" 5 5]`
with an empty state selection. -/
def vW : MainView :=
  { thresholds := ⟨5, 5, 4, 4⟩
  , at_risk := 1
  , worst_case := 0
  , total_orders := 1
  , outliers := []
  , segments := [(mkOrder "A" 5 5, Segment.atRisk)]
  , monthly := [(0, 0, 0, 0)] }

lemma mainView_vW :
    mainView (fun _ => 0) [mkOrder "A" 5 5] [] = some vW := by
  norm_num [mainView, vW, applyStateFilter, calculate_dynamic_thresholds, quantile,
    interpAt, nth, List.insertionSort, List.orderedInsert, at_risk_cnt, worst_case_cnt,
    outliers_df, is_outlier, classify, monthlyAggregate, mean, List.dedup, mkOrder,
    List.filter]

/-! ## Basic facts about `nth` and interpolation -/

lemma nth_mem : ∀ (s : List ℚ) (n : ℕ), n < s.length → nth s n ∈ s := by
  intro s
  induction s with
  | nil => intro n h; simp at h
  | cons x xs ih =>
    intro n h
    cases n with
    | zero => simp [nth]
    | succ m =>
      simp only [nth]
      exact List.mem_cons_of_mem x (ih m (by simpa using h))

lemma nth_nonneg (s : List ℚ) (hs : ∀ x ∈ s, 0 ≤ x) (n : ℕ) : 0 ≤ nth s n := by
  by_cases h : n < s.length
  · exact hs _ (nth_mem s n h)
  · have : ∀ (l : List ℚ) (m : ℕ), ¬ m < l.length → nth l m = 0 := by
      intro l
      induction l with
      | nil => intro m _; cases m <;> simp [nth]
      | cons x xs ih =>
        intro m hm
        cases m with
        | zero => simp at hm
        | succ k => simpa [nth] using ih k (by simp at hm; omega)
    rw [this s n h]

lemma nth_all_eq (s : List ℚ) (c : ℚ) (hs : ∀ x ∈ s, x = c) (n : ℕ)
    (h : n < s.length) : nth s n = c :=
  hs _ (nth_mem s n h)

lemma sorted_nth_le : ∀ (s : List ℚ), List.Sorted (· ≤ ·) s →
    ∀ i j, i ≤ j → j < s.length → nth s i ≤ nth s j := by
  intro s
  induction s with
  | nil => intro _ i j _ hj; simp at hj
  | cons x xs ih =>
    intro hs i j hij hj
    rcases List.sorted_cons.mp hs with ⟨hx, hxs⟩
    cases i with
    | zero =>
      cases j with
      | zero => exact le_refl _
      | succ b => exact hx _ (nth_mem xs b (by simpa using hj))
    | succ a =>
      cases j with
      | zero => omega
      | succ b => exact ih hxs a b (by omega) (by simpa using hj)

lemma interpAt_nonneg (s : List ℚ) (hs : ∀ x ∈ s, 0 ≤ x) (h : ℚ) :
    0 ≤ interpAt s h := by
  have ha := nth_nonneg s hs (Int.floor h).toNat
  have hb := nth_nonneg s hs ((Int.floor h).toNat + 1)
  have hg0 : (0 : ℚ) ≤ h - Int.floor h := sub_nonneg.mpr (Int.floor_le h)
  have hg1 : h - Int.floor h < 1 := by
    have := Int.lt_floor_add_one h
    linarith
  unfold interpAt
  nlinarith [mul_nonneg hg0 hb, mul_nonneg (le_of_lt (sub_pos.mpr hg1)) ha]

lemma interpAt_const (s : List ℚ) (c : ℚ) (hs : ∀ x ∈ s, x = c) {h : ℚ}
    (h0 : 0 ≤ h) (hub : h ≤ (s.length : ℚ) - 1) : interpAt s h = c := by
  have hi0 : 0 ≤ Int.floor h := Int.floor_nonneg.mpr h0
  have hiN : ((Int.floor h).toNat : ℤ) = Int.floor h := Int.toNat_of_nonneg hi0
  have hile : Int.floor h ≤ (s.length : ℤ) - 1 := by
    have h1 : (Int.floor h : ℚ) ≤ (s.length : ℚ) - 1 := le_trans (Int.floor_le h) hub
    have h2 : ((s.length : ℤ) - 1 : ℚ) = (s.length : ℚ) - 1 := by push_cast; ring
    rw [← h2] at h1
    exact_mod_cast h1
  have hilt : (Int.floor h).toNat < s.length := by omega
  have ha : nth s (Int.floor h).toNat = c := nth_all_eq s c hs _ hilt
  by_cases hbr : (Int.floor h).toNat + 1 < s.length
  · have hb : nth s ((Int.floor h).toNat + 1) = c := nth_all_eq s c hs _ hbr
    unfold interpAt
    rw [ha, hb]
    ring
  · -- the floor is the last index, so `h` is exactly `length - 1` and the
    -- fractional part vanishes
    have hieq : (Int.floor h).toNat = s.length - 1 := by omega
    have hfl : (Int.floor h : ℚ) = (s.length : ℚ) - 1 := by
      have : Int.floor h = (s.length : ℤ) - 1 := by omega
      rw [this]; push_cast; ring
    have hh : h = (s.length : ℚ) - 1 := by
      have := Int.floor_le h
      rw [hfl] at this
      linarith
    have hg : h - Int.floor h = 0 := by rw [hfl, hh]; ring
    unfold interpAt
    rw [ha, hg]
    ring

lemma interpAt_mono (s : List ℚ) (hs : List.Sorted (· ≤ ·) s) {h h' : ℚ}
    (h0 : 0 ≤ h) (hhh : h ≤ h') (hub : h' ≤ (s.length : ℚ) - 1) :
    interpAt s h ≤ interpAt s h' := by
  have h0' : 0 ≤ h' := le_trans h0 hhh
  have hi0 : 0 ≤ Int.floor h := Int.floor_nonneg.mpr h0
  have hj0 : 0 ≤ Int.floor h' := Int.floor_nonneg.mpr h0'
  have hij : Int.floor h ≤ Int.floor h' := Int.floor_mono hhh
  have hiN : ((Int.floor h).toNat : ℤ) = Int.floor h := Int.toNat_of_nonneg hi0
  have hjN : ((Int.floor h').toNat : ℤ) = Int.floor h' := Int.toNat_of_nonneg hj0
  have hjle : Int.floor h' ≤ (s.length : ℤ) - 1 := by
    have h1 : (Int.floor h' : ℚ) ≤ (s.length : ℚ) - 1 := le_trans (Int.floor_le h') hub
    have h2 : ((s.length : ℤ) - 1 : ℚ) = (s.length : ℚ) - 1 := by push_cast; ring
    rw [← h2] at h1
    exact_mod_cast h1
  have hjlt : (Int.floor h').toNat < s.length := by omega
  have hg0 : (0 : ℚ) ≤ h - Int.floor h := sub_nonneg.mpr (Int.floor_le h)
  have hg1 : h - Int.floor h < 1 := by have := Int.lt_floor_add_one h; linarith
  have hg0' : (0 : ℚ) ≤ h' - Int.floor h' := sub_nonneg.mpr (Int.floor_le h')
  rcases eq_or_lt_of_le hij with heq | hlt
  · -- same interpolation cell
    have hNN : (Int.floor h).toNat = (Int.floor h').toNat := by omega
    by_cases hbr : (Int.floor h).toNat + 1 < s.length
    · have hab : nth s (Int.floor h).toNat ≤ nth s ((Int.floor h).toNat + 1) :=
        sorted_nth_le s hs _ _ (Nat.le_succ _) hbr
      have hgg : h - Int.floor h ≤ h' - Int.floor h' := by
        rw [← heq]; linarith
      have hmul := mul_le_mul_of_nonneg_right hgg (sub_nonneg.mpr hab)
      unfold interpAt
      rw [← hNN]
      linarith
    · -- the shared cell is the last index: both fractional parts vanish
      have hieq : Int.floor h = (s.length : ℤ) - 1 := by omega
      have hfl : (Int.floor h : ℚ) = (s.length : ℚ) - 1 := by
        rw [hieq]; push_cast; ring
      have hh1 : h = (s.length : ℚ) - 1 := by
        have := Int.floor_le h
        rw [hfl] at this
        linarith
      have hh2 : h' = (s.length : ℚ) - 1 := by
        have := Int.floor_le h'
        rw [← heq, hfl] at this
        linarith
      have hgz : h - Int.floor h = 0 := by rw [hfl, hh1]; ring
      have hgz' : h' - Int.floor h' = 0 := by rw [← heq, hfl, hh2]; ring
      unfold interpAt
      rw [hgz, hgz', ← hNN]
  · -- strictly later cell: pass through the cell boundaries
    have hbr : (Int.floor h).toNat + 1 < s.length := by omega
    have hab : nth s (Int.floor h).toNat ≤ nth s ((Int.floor h).toNat + 1) :=
      sorted_nth_le s hs _ _ (Nat.le_succ _) hbr
    have step1 : interpAt s h ≤ nth s ((Int.floor h).toNat + 1) := by
      unfold interpAt
      nlinarith [mul_le_mul_of_nonneg_right (le_of_lt hg1) (sub_nonneg.mpr hab)]
    have step2 : nth s ((Int.floor h).toNat + 1) ≤ nth s (Int.floor h').toNat :=
      sorted_nth_le s hs _ _ (by omega) hjlt
    have step3 : nth s (Int.floor h').toNat ≤ interpAt s h' := by
      by_cases hbr2 : (Int.floor h').toNat + 1 < s.length
      · have hab2 : nth s (Int.floor h').toNat ≤ nth s ((Int.floor h').toNat + 1) :=
          sorted_nth_le s hs _ _ (Nat.le_succ _) hbr2
        unfold interpAt
        nlinarith [mul_nonneg hg0' (sub_nonneg.mpr hab2)]
      · have hjeq : Int.floor h' = (s.length : ℤ) - 1 := by omega
        have hfl2 : (Int.floor h' : ℚ) = (s.length : ℚ) - 1 := by
          rw [hjeq]; push_cast; ring
        have hh2 : h' = (s.length : ℚ) - 1 := by
          have := Int.floor_le h'
          rw [hfl2] at this
          linarith
        have hgz' : h' - Int.floor h' = 0 := by rw [hfl2, hh2]; ring
        unfold interpAt
        rw [hgz']
        simp
    exact le_trans step1 (le_trans step2 step3)

/-! ## Facts about `quantile` and the threshold computation -/

lemma quantile_eq_none_iff (xs : List ℚ) (q : ℚ) :
    quantile xs q = none ↔ xs = [] := by
  cases xs <;> simp [quantile]

lemma quantile_isSome (xs : List ℚ) (q : ℚ) (hne : xs ≠ []) :
    ∃ v, quantile xs q = some v := by
  cases hq : quantile xs q with
  | none => exact absurd ((quantile_eq_none_iff xs q).mp hq) hne
  | some v => exact ⟨v, rfl⟩

lemma quantile_nonneg (xs : List ℚ) (q : ℚ) (v : ℚ) (hx : ∀ x ∈ xs, 0 ≤ x)
    (hv : quantile xs q = some v) : 0 ≤ v := by
  unfold quantile at hv
  split at hv
  · exact absurd hv (by simp)
  · have hsort : ∀ x ∈ xs.insertionSort (· ≤ ·), 0 ≤ x := by
      intro x hxmem
      exact hx x ((List.perm_insertionSort (· ≤ ·) xs).mem_iff.mp hxmem)
    have := interpAt_nonneg (xs.insertionSort (· ≤ ·)) hsort (q * ((xs.length : ℚ) - 1))
    injection hv with hv
    rw [← hv]
    exact this

lemma quantile_const (xs : List ℚ) (q c : ℚ) (hne : xs ≠ [])
    (hall : ∀ x ∈ xs, x = c) (hq0 : 0 ≤ q) (hq1 : q ≤ 1) :
    quantile xs q = some c := by
  have hlen : 1 ≤ xs.length := List.length_pos.mpr hne
  have hlenQ : (1 : ℚ) ≤ (xs.length : ℚ) := by exact_mod_cast hlen
  have hsall : ∀ x ∈ xs.insertionSort (· ≤ ·), x = c := by
    intro x hxmem
    exact hall x ((List.perm_insertionSort (· ≤ ·) xs).mem_iff.mp hxmem)
  have hslen : (xs.insertionSort (· ≤ ·)).length = xs.length :=
    (List.perm_insertionSort (· ≤ ·) xs).length_eq
  unfold quantile
  rw [if_neg (by simpa using hne)]
  congr 1
  apply interpAt_const _ c hsall
  · exact mul_nonneg hq0 (by linarith)
  · rw [hslen]
    nlinarith

lemma quantile_mono (xs : List ℚ) (q q' a b : ℚ) (hq0 : 0 ≤ q) (hqq : q ≤ q')
    (hq1 : q' ≤ 1) (ha : quantile xs q = some a) (hb : quantile xs q' = some b) :
    a ≤ b := by
  have hne : xs ≠ [] := by
    intro hcon
    rw [hcon] at ha
    simp [quantile] at ha
  have hlen : 1 ≤ xs.length := List.length_pos.mpr hne
  have hlenQ : (1 : ℚ) ≤ (xs.length : ℚ) := by exact_mod_cast hlen
  have hslen : (xs.insertionSort (· ≤ ·)).length = xs.length :=
    (List.perm_insertionSort (· ≤ ·) xs).length_eq
  have hsorted : List.Sorted (· ≤ ·) (xs.insertionSort (· ≤ ·)) :=
    List.sorted_insertionSort (· ≤ ·) xs
  unfold quantile at ha hb
  rw [if_neg (by simpa using hne)] at ha hb
  injection ha with ha
  injection hb with hb
  rw [← ha, ← hb]
  apply interpAt_mono _ hsorted
  · exact mul_nonneg hq0 (by linarith)
  · exact mul_le_mul_of_nonneg_right hqq (by linarith)
  · rw [hslen]
    nlinarith

lemma calculate_dynamic_thresholds_none_iff (df : List Order) :
    calculate_dynamic_thresholds df = none ↔ df = [] := by
  constructor
  · intro hnone
    by_contra hne
    have hmf : df.map (·.freight_value) ≠ [] := by simpa using hne
    have hmd : df.map (·.delivery_days) ≠ [] := by simpa using hne
    obtain ⟨a, ha⟩ := quantile_isSome (df.map (·.freight_value)) (1/4) hmf
    obtain ⟨b, hb⟩ := quantile_isSome (df.map (·.freight_value)) (3/4) hmf
    obtain ⟨c, hc⟩ := quantile_isSome (df.map (·.delivery_days)) (1/4) hmd
    obtain ⟨d, hd⟩ := quantile_isSome (df.map (·.delivery_days)) (3/4) hmd
    unfold calculate_dynamic_thresholds at hnone
    rw [ha, hb, hc, hd] at hnone
    simp at hnone
  · intro h
    subst h
    rfl

/-- Unpack a successful threshold computation into its defining quantiles. -/
lemma calculate_dynamic_thresholds_spec (df : List Order) (t : ThresholdSet)
    (ht : calculate_dynamic_thresholds df = some t) :
    ∃ fq1 fq3 dq1 dq3 : ℚ,
      quantile (df.map (·.freight_value)) (1/4) = some fq1 ∧
      quantile (df.map (·.freight_value)) (3/4) = some fq3 ∧
      quantile (df.map (·.delivery_days)) (1/4) = some dq1 ∧
      quantile (df.map (·.delivery_days)) (3/4) = some dq3 ∧
      t.f_limit = fq3 + 3/2 * (fq3 - fq1) ∧
      t.d_limit = dq3 + 3/2 * (dq3 - dq1) ∧
      t.f_warning = t.f_limit * (4/5) ∧
      t.d_warning = t.d_limit * (4/5) := by
  unfold calculate_dynamic_thresholds at ht
  split at ht
  · next fq1 fq3 dq1 dq3 h1 h2 h3 h4 =>
      refine ⟨fq1, fq3, dq1, dq3, h1, h2, h3, h4, ?_⟩
      injection ht with ht
      rw [← ht]
      exact ⟨rfl, rfl, rfl, rfl⟩
  · exact absurd ht (by simp)

lemma classify_severe_iff (f d : ℚ) (t : ThresholdSet) :
    (classify f d t = Segment.highFreight ∨ classify f d t = Segment.delayed ∨
     classify f d t = Segment.worstCase) ↔ (d > t.d_limit ∨ f > t.f_limit) := by
  unfold classify
  by_cases h4 : d > t.d_limit <;> by_cases h3 : f > t.f_limit <;>
    by_cases h2 : d > t.d_warning ∨ f > t.f_warning <;> simp [h2, h3, h4]

/-- Claim C5 (confirmed): for every record collection and threshold set,
`at_risk_cnt` counts exactly the records whose `delivery_days` lies in the
half-open interval `(d_warning, d_limit]` or whose `freight_value` lies in
`(f_warning, f_limit]`, and `worst_case_cnt` counts exactly the records with
`delivery_days > d_limit` and `freight_value > f_limit`. -/
theorem C5_count_by_risk_band (rs : List Order) (t : ThresholdSet) :
    at_risk_cnt rs t = (rs.filter (fun r =>
      decide ((t.d_warning < r.delivery_days ∧ r.delivery_days ≤ t.d_limit) ∨
              (t.f_warning < r.freight_value ∧ r.freight_value ≤ t.f_limit)))).length ∧
    worst_case_cnt rs t = (rs.filter (fun r =>
      decide (t.d_limit < r.delivery_days ∧ t.f_limit < r.freight_value))).length := by
  constructor
  · unfold at_risk_cnt
    refine congrArg List.length (List.filter_congr ?_)
    intro r hr
    simp [Bool.decide_and, Bool.decide_or]
  · unfold worst_case_cnt
    refine congrArg List.length (List.filter_congr ?_)
    intro r hr
    simp [Bool.decide_and]

/-- Claim C7 (confirmed): `calculate_dynamic_thresholds` fails (yields the
`NaN`/`none` result, since the percentile is undefined) when and only when the
input record collection is empty; on every non-empty collection it returns the
four scalar thresholds. -/
theorem C7_fails_iff_empty (df : List Order) :
    (calculate_dynamic_thresholds df = none ↔ df = []) ∧
    (df ≠ [] → ∃ t, calculate_dynamic_thresholds df = some t) := by
  refine ⟨calculate_dynamic_thresholds_none_iff df, fun hne => ?_⟩
  cases h : calculate_dynamic_thresholds df with
  | none => exact absurd ((calculate_dynamic_thresholds_none_iff df).mp h) hne
  | some t => exact ⟨t, rfl⟩

/-- Witness for C7 at the concrete one-row collection. -/
theorem C7_witness :
    ([mkOrder "A" 5 5] : List Order) ≠ [] ∧
    (∃ t, calculate_dynamic_thresholds [mkOrder "A" 5 5] = some t) :=
  ⟨by simp, (C7_fails_iff_empty [mkOrder "A" 5 5]).2 (by simp)⟩

/-- Claim C9 (confirmed): when `monthlyAggregate`'s own missing-timestamp
filter removes every record, the result is the empty ordered sequence (no
error is possible; the function is total). -/
theorem C9_monthly_empty_after_filter (monthOf : ℚ → ℤ) (rs : List Order)
    (h : ∀ r ∈ rs, r.order_approved_at = none ∨ r.order_delivered_carrier_date = none) :
    monthlyAggregate monthOf rs = [] := by
  have hop : rs.filter (fun r =>
      r.order_approved_at.isSome && r.order_delivered_carrier_date.isSome) = [] := by
    rw [List.filter_eq_nil_iff]
    intro r hr
    rcases h r hr with h1 | h1 <;> simp [h1]
  unfold monthlyAggregate
  rw [hop]
  rfl

/-- Witness for C9 at a concrete one-row collection whose only record lacks
`order_approved_at`. -/
theorem C9_witness :
    (∀ r ∈ [mkOrderT "X" 0 none (some 2) 3],
      r.order_approved_at = none ∨ r.order_delivered_carrier_date = none) ∧
    monthlyAggregate (fun _ => 0) [mkOrderT "X" 0 none (some 2) 3] = [] :=
  ⟨by simp [mkOrderT],
   C9_monthly_empty_after_filter (fun _ => 0) _ (by simp [mkOrderT])⟩

/-- Claim C10 (confirmed): a record belongs to the outlier detail table iff
it is in the active collection and the classification cascade assigns it one
of `High Freight`, `Delayed` or `Worst Case`; equivalently, exactly the
`Normal` and `At-Risk` records are excluded. -/
theorem C10_outlier_table_iff_severe_segment (rs : List Order) (t : ThresholdSet) (r : Order) :
    r ∈ outliers_df rs t ↔
      r ∈ rs ∧ (classify r.freight_value r.delivery_days t = Segment.highFreight ∨
                classify r.freight_value r.delivery_days t = Segment.delayed ∨
                classify r.freight_value r.delivery_days t = Segment.worstCase) := by
  rw [outliers_df, List.mem_filter, classify_severe_iff]
  simp [is_outlier]

/-- Claim C4 (confirmed): on every non-empty collection of records with
non-negative `freight_value` and `delivery_days` (the data model guarantees
non-negative monetary amounts and day counts), each field's thresholds satisfy
`warning = 0.8 * limit` exactly, `warning <= limit`, and `limit >= Q3`. -/
theorem C4_threshold_invariants (df : List Order) (t : ThresholdSet)
    (hnn : ∀ r ∈ df, 0 ≤ r.freight_value ∧ 0 ≤ r.delivery_days)
    (ht : calculate_dynamic_thresholds df = some t) :
    t.f_warning = (4/5) * t.f_limit ∧ t.d_warning = (4/5) * t.d_limit ∧
    t.f_warning ≤ t.f_limit ∧ t.d_warning ≤ t.d_limit ∧
    (∀ x, quantile (df.map (·.freight_value)) (3/4) = some x → x ≤ t.f_limit) ∧
    (∀ x, quantile (df.map (·.delivery_days)) (3/4) = some x → x ≤ t.d_limit) := by
  obtain ⟨fq1, fq3, dq1, dq3, h1, h2, h3, h4, hfl, hdl, hfw, hdw⟩ :=
    calculate_dynamic_thresholds_spec df t ht
  have hq13f : fq1 ≤ fq3 :=
    quantile_mono _ (1/4) (3/4) _ _ (by norm_num) (by norm_num) (by norm_num) h1 h2
  have hq13d : dq1 ≤ dq3 :=
    quantile_mono _ (1/4) (3/4) _ _ (by norm_num) (by norm_num) (by norm_num) h3 h4
  have hf3nn : 0 ≤ fq3 := by
    apply quantile_nonneg _ (3/4) _ _ h2
    intro x hx
    obtain ⟨r, hr, rfl⟩ := List.mem_map.mp hx
    exact (hnn r hr).1
  have hd3nn : 0 ≤ dq3 := by
    apply quantile_nonneg _ (3/4) _ _ h4
    intro x hx
    obtain ⟨r, hr, rfl⟩ := List.mem_map.mp hx
    exact (hnn r hr).2
  refine ⟨by rw [hfw]; ring, by rw [hdw]; ring, ?_, ?_, ?_, ?_⟩
  · rw [hfw, hfl]; nlinarith
  · rw [hdw, hdl]; nlinarith
  · intro x hx
    rw [h2] at hx
    injection hx with hx
    rw [← hx, hfl]
    linarith
  · intro x hx
    rw [h4] at hx
    injection hx with hx
    rw [← hx, hdl]
    linarith

/-- Witness for C4 at a concrete two-row collection. -/
theorem C4_witness :
    calculate_dynamic_thresholds [mkOrder "A" 1 2, mkOrder "B" 3 4] =
      some ⟨4, 5, 16/5, 4⟩ ∧
    ((⟨4, 5, 16/5, 4⟩ : ThresholdSet).f_warning =
        (4/5) * (⟨4, 5, 16/5, 4⟩ : ThresholdSet).f_limit ∧
     (⟨4, 5, 16/5, 4⟩ : ThresholdSet).d_warning =
        (4/5) * (⟨4, 5, 16/5, 4⟩ : ThresholdSet).d_limit ∧
     (⟨4, 5, 16/5, 4⟩ : ThresholdSet).f_warning ≤ (⟨4, 5, 16/5, 4⟩ : ThresholdSet).f_limit ∧
     (⟨4, 5, 16/5, 4⟩ : ThresholdSet).d_warning ≤ (⟨4, 5, 16/5, 4⟩ : ThresholdSet).d_limit) := by
  have hnn : ∀ r ∈ [mkOrder "A" 1 2, mkOrder "B" 3 4],
      0 ≤ r.freight_value ∧ 0 ≤ r.delivery_days := by
    intro r hr
    simp [mkOrder] at hr
    rcases hr with rfl | rfl <;> norm_num [mkOrder]
  have ht : calculate_dynamic_thresholds [mkOrder "A" 1 2, mkOrder "B" 3 4] =
      some ⟨4, 5, 16/5, 4⟩ := by
    norm_num [calculate_dynamic_thresholds, quantile, interpAt, nth, mkOrder,
      List.insertionSort, List.orderedInsert]
  obtain ⟨a, b, c, d, _, _⟩ := C4_threshold_invariants _ _ hnn ht
  exact ⟨ht, a, b, c, d⟩

/-- Counterexample to C2 as stated: for the one-row collection with the
single value `5` in both fields, the computed warning is `4 = 0.8 * Q3`, not
`Q3 = 5`; the claim's `limit = warning = Q3` fails. -/
theorem C2_counterexample :
    calculate_dynamic_thresholds [mkOrder "A" 5 5] = some ⟨5, 5, 4, 4⟩ ∧
    ((4 : ℚ) ≠ (5 : ℚ)) := by
  constructor
  · norm_num [calculate_dynamic_thresholds, quantile, interpAt, nth, mkOrder,
      List.insertionSort, List.orderedInsert]
  · norm_num

/-- Claim C2 (amended): on a non-empty collection where a field has a
single distinct value `c`, that field's `Q1 = Q3 = c`, `IQR = 0`, `limit = Q3`
and `warning = 0.8 * Q3` (not `warning = Q3`); a value is an outlier for that
field iff it exceeds the single observed value `c`. -/
theorem C2_single_distinct_value (df : List Order) (c : ℚ) (t : ThresholdSet)
    (hne : df ≠ []) (ht : calculate_dynamic_thresholds df = some t) :
    ((∀ r ∈ df, r.freight_value = c) →
      quantile (df.map (·.freight_value)) (1/4) = some c ∧
      quantile (df.map (·.freight_value)) (3/4) = some c ∧
      t.f_limit = c ∧ t.f_warning = (4/5) * c ∧
      (∀ v : ℚ, v > t.f_limit ↔ v > c)) ∧
    ((∀ r ∈ df, r.delivery_days = c) →
      quantile (df.map (·.delivery_days)) (1/4) = some c ∧
      quantile (df.map (·.delivery_days)) (3/4) = some c ∧
      t.d_limit = c ∧ t.d_warning = (4/5) * c ∧
      (∀ v : ℚ, v > t.d_limit ↔ v > c)) := by
  obtain ⟨fq1, fq3, dq1, dq3, h1, h2, h3, h4, hfl, hdl, hfw, hdw⟩ :=
    calculate_dynamic_thresholds_spec df t ht
  constructor
  · intro hall
    have hmne : df.map (·.freight_value) ≠ [] := by simpa using hne
    have hmall : ∀ x ∈ df.map (·.freight_value), x = c := by
      intro x hx
      obtain ⟨r, hr, rfl⟩ := List.mem_map.mp hx
      exact hall r hr
    have hc1 : quantile (df.map (·.freight_value)) (1/4) = some c :=
      quantile_const _ _ _ hmne hmall (by norm_num) (by norm_num)
    have hc3 : quantile (df.map (·.freight_value)) (3/4) = some c :=
      quantile_const _ _ _ hmne hmall (by norm_num) (by norm_num)
    have e1 : fq1 = c := by rw [h1] at hc1; injection hc1
    have e3 : fq3 = c := by rw [h2] at hc3; injection hc3
    have hlim : t.f_limit = c := by rw [hfl, e1, e3]; ring
    refine ⟨hc1, hc3, hlim, by rw [hfw, hlim]; ring, fun v => by rw [hlim]⟩
  · intro hall
    have hmne : df.map (·.delivery_days) ≠ [] := by simpa using hne
    have hmall : ∀ x ∈ df.map (·.delivery_days), x = c := by
      intro x hx
      obtain ⟨r, hr, rfl⟩ := List.mem_map.mp hx
      exact hall r hr
    have hc1 : quantile (df.map (·.delivery_days)) (1/4) = some c :=
      quantile_const _ _ _ hmne hmall (by norm_num) (by norm_num)
    have hc3 : quantile (df.map (·.delivery_days)) (3/4) = some c :=
      quantile_const _ _ _ hmne hmall (by norm_num) (by norm_num)
    have e1 : dq1 = c := by rw [h3] at hc1; injection hc1
    have e3 : dq3 = c := by rw [h4] at hc3; injection hc3
    have hlim : t.d_limit = c := by rw [hdl, e1, e3]; ring
    refine ⟨hc1, hc3, hlim, by rw [hdw, hlim]; ring, fun v => by rw [hlim]⟩

/-- Witness for the amended C2 at the concrete single-value collection. -/
theorem C2_witness :
    ([mkOrder "A" 5 5] : List Order) ≠ [] ∧
    calculate_dynamic_thresholds [mkOrder "A" 5 5] = some ⟨5, 5, 4, 4⟩ ∧
    quantile ([mkOrder "A" 5 5].map (·.freight_value)) (3/4) = some 5 ∧
    (⟨5, 5, 4, 4⟩ : ThresholdSet).f_limit = 5 ∧
    (⟨5, 5, 4, 4⟩ : ThresholdSet).f_warning = (4/5) * 5 := by
  have hne : ([mkOrder "A" 5 5] : List Order) ≠ [] := by simp
  have ht : calculate_dynamic_thresholds [mkOrder "A" 5 5] = some ⟨5, 5, 4, 4⟩ := by
    norm_num [calculate_dynamic_thresholds, quantile, interpAt, nth, mkOrder,
      List.insertionSort, List.orderedInsert]
  have h := (C2_single_distinct_value [mkOrder "A" 5 5] 5 ⟨5, 5, 4, 4⟩ hne ht).1
    (by intro r hr; simp [mkOrder] at hr; rw [hr])
  exact ⟨hne, ht, h.2.1, h.2.2.1, h.2.2.2.1⟩

/-- Counterexample to C3 as stated: `[3, 2, 4]` is a permutation of
`[2, 3, 4]`, yet running the cascade in order `3, 2, 4, 5` on a record whose
freight exceeds `f_limit` (hence also `f_warning`) yields `At-Risk`, while the
original order `2, 3, 4, 5` yields `High Freight`. -/
theorem C3_counterexample :
    List.Perm [3, 2, 4] [2, 3, 4] ∧
    runCascade [3, 2, 4, 5] 10 0 ⟨5, 100, 4, 80⟩ = Segment.atRisk ∧
    runCascade [2, 3, 4, 5] 10 0 ⟨5, 100, 4, 80⟩ = Segment.highFreight ∧
    Segment.atRisk ≠ Segment.highFreight := by
  refine ⟨List.Perm.swap 2 3 [4], ?_, ?_, by decide⟩ <;>
    norm_num [runCascade, applyStep]

/-- Claim C3 (amended): only the reorderings of steps 2-4 that keep the
`At-Risk` step 2 first are result-preserving: swapping steps 3 and 4 (with
step 5 still strictly last) gives the same final segment for every record and
threshold set, but moving step 2 after step 3 can change the result. -/
theorem C3_swap_steps_3_4 (f d : ℚ) (t : ThresholdSet) :
    runCascade [2, 4, 3, 5] f d t = runCascade [2, 3, 4, 5] f d t := by
  unfold runCascade
  simp only [List.foldl]
  by_cases h3 : f > t.f_limit <;> by_cases h4 : d > t.d_limit <;>
    by_cases h2 : d > t.d_warning ∨ f > t.f_warning <;>
    simp [applyStep, h2, h3, h4]

/-- Counterexample to C6 as stated: classification of a record with a
missing field does not fail; a record with both fields missing is silently
assigned `Normal`, and one with a missing freight value and a huge delivery
time is silently assigned `Delayed`. -/
theorem C6_counterexample :
    classifyN none none ⟨5, 100, 4, 80⟩ = Segment.normal ∧
    classifyN none (some 200) ⟨5, 100, 4, 80⟩ = Segment.delayed := by
  constructor <;> norm_num [classifyN, gtN]

/-- Claim C6 (amended): classification never fails on a missing field -
there is no `MissingFieldError` in the code; a pandas mask comparison with a
missing (`NaN`) cell is false, so a record with both fields present is
classified normally and a record with both fields missing is silently
assigned `Normal`. -/
theorem C6_missing_fields_silently_classified (t : ThresholdSet) :
    (∀ f d : ℚ, classifyN (some f) (some d) t = classify f d t) ∧
    classifyN none none t = Segment.normal := by
  constructor
  · intro f d
    unfold classifyN classify gtN
    by_cases h5 : d > t.d_limit ∧ f > t.f_limit <;>
      by_cases h4 : d > t.d_limit <;>
      by_cases h3 : f > t.f_limit <;>
      by_cases h2 : d > t.d_warning ∨ f > t.f_warning <;>
      simp [h2, h3, h4, h5, Bool.decide_and, Bool.decide_or]
  · rfl

/-- Claim C1 (amended): the threshold set used by segmentation, the
risk-band counts and the outlier table is `calculate_dynamic_thresholds`
applied to the FULL loaded dataset - computed before the sidebar filter, hence
invariant under every filter selection - and the counts, outlier table and
segments are then derived from the filtered collection with those full-dataset
thresholds. -/
theorem C1_thresholds_from_unfiltered_dataset (monthOf : ℚ → ℤ) (df : List Order)
    (sel : List String) (v : MainView) (hv : mainView monthOf df sel = some v) :
    calculate_dynamic_thresholds df = some v.thresholds ∧
    v.at_risk = at_risk_cnt (applyStateFilter df sel) v.thresholds ∧
    v.worst_case = worst_case_cnt (applyStateFilter df sel) v.thresholds ∧
    v.outliers = outliers_df (applyStateFilter df sel) v.thresholds ∧
    (∀ sel2 v2, mainView monthOf df sel2 = some v2 → v2.thresholds = v.thresholds) := by
  unfold mainView at hv
  split at hv
  · exact absurd hv (by simp)
  split at hv
  · exact absurd hv (by simp)
  next t ht =>
    injection hv with hv
    subst hv
    refine ⟨ht, rfl, rfl, rfl, ?_⟩
    intro sel2 v2 hv2
    unfold mainView at hv2
    split at hv2
    · exact absurd hv2 (by simp)
    split at hv2
    · exact absurd hv2 (by simp)
    next t2 ht2 =>
      injection hv2 with hv2
      subst hv2
      have htt : t2 = t := by
        rw [ht] at ht2
        injection ht2 with h
        exact h.symm
      rw [htt]

/-- Claim C8 (amended): the monthly lead-time aggregate of tab 2 is
computed from the FULL loaded dataframe `df`, not from the user-filtered
collection `plot_df`; it is invariant under every filter selection. -/
theorem C8_monthly_from_unfiltered_dataset (monthOf : ℚ → ℤ) (df : List Order)
    (sel : List String) (v : MainView) (hv : mainView monthOf df sel = some v) :
    v.monthly = monthlyAggregate monthOf df ∧
    (∀ sel2 v2, mainView monthOf df sel2 = some v2 → v2.monthly = v.monthly) := by
  unfold mainView at hv
  split at hv
  · exact absurd hv (by simp)
  split at hv
  · exact absurd hv (by simp)
  next t ht =>
    injection hv with hv
    subst hv
    refine ⟨rfl, ?_⟩
    intro sel2 v2 hv2
    unfold mainView at hv2
    split at hv2
    · exact absurd hv2 (by simp)
    split at hv2
    · exact absurd hv2 (by simp)
    next t2 ht2 =>
      injection hv2 with hv2
      subst hv2
      rfl

/-- Witness for the amended C1 at a concrete one-row dataframe. -/
theorem C1_witness :
    mainView (fun _ => 0) [mkOrder "A" 5 5] [] = some vW ∧
    calculate_dynamic_thresholds [mkOrder "A" 5 5] = some vW.thresholds ∧
    vW.at_risk = at_risk_cnt (applyStateFilter [mkOrder "A" 5 5] []) vW.thresholds := by
  obtain ⟨a, b, _, _, _⟩ :=
    C1_thresholds_from_unfiltered_dataset (fun _ => 0) [mkOrder "A" 5 5] [] vW mainView_vW
  exact ⟨mainView_vW, a, b⟩

/-- Witness for the amended C8 at a concrete one-row dataframe. -/
theorem C8_witness :
    mainView (fun _ => 0) [mkOrder "A" 5 5] [] = some vW ∧
    vW.monthly = monthlyAggregate (fun _ => 0) [mkOrder "A" 5 5] := by
  obtain ⟨a, _⟩ :=
    C8_monthly_from_unfiltered_dataset (fun _ => 0) [mkOrder "A" 5 5] [] vW mainView_vW
  exact ⟨mainView_vW, a⟩

/-- Counterexample to C1 as stated: with a two-state dataframe filtered to
state `A`, the thresholds `main` uses are those of the full dataset
(`150/120`), not `computeThresholds` of the filtered collection (`0/0`). -/
theorem C1_counterexample :
    (mainView (fun _ => 0) [mkOrder "A" 0 0, mkOrder "B" 100 100] ["A"]).map
        MainView.thresholds = some ⟨150, 150, 120, 120⟩ ∧
    calculate_dynamic_thresholds
        (applyStateFilter [mkOrder "A" 0 0, mkOrder "B" 100 100] ["A"]) =
      some ⟨0, 0, 0, 0⟩ ∧
    (⟨150, 150, 120, 120⟩ : ThresholdSet) ≠ ⟨0, 0, 0, 0⟩ := by
  refine ⟨?_, ?_, by simp⟩
  · norm_num [mainView, calculate_dynamic_thresholds, quantile, interpAt, nth, mkOrder,
      List.insertionSort, List.orderedInsert]
  · have h : applyStateFilter [mkOrder "A" 0 0, mkOrder "B" 100 100] ["A"] =
        [mkOrder "A" 0 0] := by
      simp [applyStateFilter, mkOrder]
    rw [h]
    norm_num [calculate_dynamic_thresholds, quantile, interpAt, nth, mkOrder,
      List.insertionSort, List.orderedInsert]

/-- Counterexample to C8 as stated: with a two-state dataframe filtered to
state `SP`, the monthly aggregate `main` shows is that of the full dataset
(mean purchase-to-approval `2` days), not the aggregate of the filtered
collection (mean `1` day). -/
theorem C8_counterexample :
    (mainView (fun _ => 0)
        [mkOrderT "SP" 0 (some 1) (some 1) 1, mkOrderT "RJ" 0 (some 3) (some 3) 3]
        ["SP"]).map MainView.monthly = some [(0, 2, 0, 0)] ∧
    monthlyAggregate (fun _ => 0)
        (applyStateFilter
          [mkOrderT "SP" 0 (some 1) (some 1) 1, mkOrderT "RJ" 0 (some 3) (some 3) 3]
          ["SP"]) = [(0, 1, 0, 0)] ∧
    (some [((0 : ℤ), (2 : ℚ), (0 : ℚ), (0 : ℚ))] ≠
      some [((0 : ℤ), (1 : ℚ), (0 : ℚ), (0 : ℚ))]) := by
  refine ⟨?_, ?_, by norm_num⟩
  · norm_num [mainView, calculate_dynamic_thresholds, quantile, interpAt, nth, mkOrderT,
      List.insertionSort, List.orderedInsert, monthlyAggregate, mean, List.dedup,
      List.filter]
  · have h : applyStateFilter
        [mkOrderT "SP" 0 (some 1) (some 1) 1, mkOrderT "RJ" 0 (some 3) (some 3) 3]
        ["SP"] = [mkOrderT "SP" 0 (some 1) (some 1) 1] := by
      simp [applyStateFilter, mkOrderT]
    rw [h]
    norm_num [monthlyAggregate, mkOrderT, List.filter, List.dedup, List.insertionSort,
      List.orderedInsert, mean]
